import Mathlib

/-
  Shallow embedding of the track event data source core from
  include/perfetto/tracing/internal/track_event_data_source.h.

  The embedding models the dispatch core of the file: the enablement
  checks, the per sequence incremental state, the dynamic category
  cache, and the ordered steps of an event emission
  (TraceForCategoryImpl).  External collaborators that are declared in
  other headers (TrackEventInternal, Category, the track registry, the
  writer) are modelled from the specification text; each such
  definition carries a doc comment starting with the words Modelled
  from the spec.

  Machine integers of the source (uint8_t state bytes, uint64_t
  timestamps and uuids) are modelled as Nat: none of the claims under
  study involve overflow, and the source performs no arithmetic on
  them beyond comparisons against zero.

  Concurrency is modelled sequentially: each sequence (thread) owns its
  incremental state exclusively, which is exactly the resource model
  the source documents, so a single threaded state passing semantics is
  faithful for the per sequence claims.  The set of concurrently active
  session instances is collapsed to the bitmask test the source
  performs: the emission lambda runs exactly when the instances bitmask
  is nonzero.
-/

namespace Perfetto

/-- Timestamp paired with the id of the clock that produced it,
mirroring struct TraceTimestamp (source lines 36 to 39). -/
structure TraceTimestamp where
  clock_id : Nat
  nanoseconds : Nat
deriving DecidableEq

/-- Modelled from the spec: TrackEventInternal.GetClockId is external
and returns the fixed builtin clock id of the trace clock.  The
concrete value is the builtin boottime clock id; only its fixedness
matters to the claims. -/
def traceClockId : Nat := 6

/-- A timestamp argument supplied at a trace point: either a raw
nanosecond count, or a user defined timestamp type already carrying its
own clock id through a user conversion. -/
inductive TimestampArg where
  | raw (ns : Nat)
  | custom (t : TraceTimestamp)
deriving DecidableEq

/-- ConvertTimestampToTraceTimeNs (source lines 45 to 52): the
specialization for a raw uint64_t count is a pass through that stamps
the value with the trace clock id of TrackEventInternal.GetClockId; a
user defined timestamp type supplies its own TraceTimestamp. -/
def ConvertTimestampToTraceTimeNs : TimestampArg → TraceTimestamp
  | TimestampArg.raw ns => { clock_id := traceClockId, nanoseconds := ns }
  | TimestampArg.custom t => t

/-- A category reference, resolved at the call site to exactly one of
the two variants of CategoryTraits (source lines 98 to 132): a static
category addressed by its registry index, or a dynamic category named
at runtime. -/
inductive CategoryRef where
  | static (idx : Nat)
  | dynamic (name : String)
deriving DecidableEq

/-- Per sequence incremental state (TrackEventIncrementalState).  The
structure itself is declared in an external header; the fields below
are the ones this core reads and writes: the cleared flag (source line
613), the dynamic category cache (source lines 680 to 692) and the per
sequence set of tracks whose descriptors were already written this
epoch (consulted through WriteTrackDescriptorIfNeeded, source line
621).  The cache is an association list from dynamic category name to
the computed enabled boolean. -/
structure TrackEventIncrementalState where
  was_cleared : Bool
  dynamic_categories : List (String × Bool)
  seen_tracks : List Nat
deriving DecidableEq

/-- Modelled from the spec: a fresh or reset sequence state.  The
hosting framework recreates the incremental state object on a buffer
reset: the cleared flag starts true and both containers start empty. -/
def resetSequence : TrackEventIncrementalState :=
  { was_cleared := true, dynamic_categories := [], seen_tracks := [] }

/-- The logical trace event record assembled by one emission: category
tags, event name, event type, resolved timestamp in nanoseconds, the
optional explicit track uuid, and the named debug values appended by
the argument callback. -/
structure EventRecord where
  categories : List String
  name : String
  etype : Nat
  timestamp : Nat
  track_uuid : Option Nat
  annots : List (String × Nat)
deriving DecidableEq

/-- One item appended to the output stream of a sequence: the
incremental state rebuild signal sent to the writer, a track
descriptor, or an event record. -/
inductive OutItem where
  | incrementalReset (ts : Nat)
  | trackDescriptor (uuid : Nat)
  | event (e : EventRecord)
deriving DecidableEq

/-- Association list lookup for the dynamic category cache, modelling
the unordered map find of source line 680. -/
def lookupCache : List (String × Bool) → String → Option Bool
  | [], _ => none
  | (k, v) :: rest, n => if k = n then some v else lookupCache rest n

/-- Splits a character list at commas, accumulating the current member
in reverse; structural helper for the group member decomposition. -/
def splitCommaChars : List Char → List Char → List String
  | [], acc => [String.mk acc.reverse]
  | c :: rest, acc =>
    if c = ',' then String.mk acc.reverse :: splitCommaChars rest []
    else splitCommaChars rest (c :: acc)

/-- Modelled from the spec: Category.FromDynamicCategory together with
ForEachGroupMember are external; a dynamic category name encodes a
comma joined group of member names and each member is emitted as a
separate category tag (source lines 630 to 639). -/
def groupMembers (name : String) : List String :=
  splitCommaChars name.toList []

/-- IsDynamicCategoryEnabled (source lines 676 to 693): look the name
up in the sequence local cache; on a hit return the cached boolean
unchanged; on a miss take the session lock, evaluate the category
matching predicate of the session config (external
TrackEventInternal.IsCategoryEnabled, passed here as the function
config), store the result in the cache under the name and return it.
The result is the enabled boolean, the updated state, and the number of
config evaluations the call performed. -/
def IsDynamicCategoryEnabled (config : String → Bool)
    (incr : TrackEventIncrementalState) (name : String) :
    Bool × TrackEventIncrementalState × Nat :=
  match lookupCache incr.dynamic_categories name with
  | some b => (b, incr, 0)
  | none =>
    let enabled := config name
    (enabled,
     { incr with dynamic_categories := incr.dynamic_categories ++ [(name, enabled)] },
     1)

/-- Modelled from the spec: TrackEventInternal.WriteTrackDescriptorIfNeeded
is external; if the descriptor of the track has not been written in the
current reset epoch (membership in the per sequence seen tracks set),
write it now and mark it written; otherwise do nothing. -/
def WriteTrackDescriptorIfNeeded (uuid : Nat)
    (incr : TrackEventIncrementalState) (out : List OutItem) :
    TrackEventIncrementalState × List OutItem :=
  if uuid ∈ incr.seen_tracks then (incr, out)
  else ({ incr with seen_tracks := uuid :: incr.seen_tracks },
        out ++ [OutItem.trackDescriptor uuid])

/-- Result of one trace point call on a sequence: the updated
incremental state, the updated output stream, how many times the
argument callback was invoked, how many times the session config was
evaluated, and whether every debug build assertion evaluated during the
call held (in release builds the assertions are compiled out and the
recorded values are used as is either way). -/
structure EmitResult where
  incr : TrackEventIncrementalState
  out : List OutItem
  callbackInvocations : Nat
  configEvals : Nat
  dchecksOk : Bool
deriving DecidableEq

/-- Incremental state validity check of the emission (source lines 610
to 617): when the cleared flag is set, clear the flag and signal the
external writer to re-establish its interned dictionaries (the call to
TrackEventInternal.ResetIncrementalState, modelled as the reset item
appended to the output with the resolved timestamp); otherwise do
nothing. -/
def resetStep (ts : Nat) (incr : TrackEventIncrementalState)
    (out : List OutItem) : TrackEventIncrementalState × List OutItem :=
  if incr.was_cleared then
    ({ incr with was_cleared := false },
     out ++ [OutItem.incrementalReset ts])
  else (incr, out)

/-- Lazy track descriptor step of the emission (source lines 619 to
623): when a non default track was supplied, delegate to
WriteTrackDescriptorIfNeeded; the truthiness test of line 620 on the
track is modelled from the spec as the test that a non default track
was supplied. -/
def trackStep (track : Option Nat)
    (st : TrackEventIncrementalState × List OutItem) :
    TrackEventIncrementalState × List OutItem :=
  match track with
  | some uuid => WriteTrackDescriptorIfNeeded uuid st.1 st.2
  | none => st

/-- The event record written by an enabled emission (source lines 625
to 643): category tags are the static category of the registry for a
static category and the comma joined group members for a dynamic one;
the track uuid is attached exactly when the track argument is not the
defaulted kDefaultTrack argument (the address comparison of line 640,
modelled by the Option); the argument callback fills in the debug
values of the open record. -/
def emittedEvent (registryNames : List String) (category : CategoryRef)
    (event_name : String) (etype : Nat) (track : Option Nat)
    (timestamp : TimestampArg)
    (arg_function : List (String × Nat) → List (String × Nat)) : EventRecord :=
  { categories :=
      match category with
      | CategoryRef.static idx => [registryNames.getD idx ""]
      | CategoryRef.dynamic n => groupMembers n,
    name := event_name, etype := etype,
    timestamp := (ConvertTimestampToTraceTimeNs timestamp).nanoseconds,
    track_uuid := track,
    annots := arg_function [] }

/-- Ordered body of an enabled emission (source lines 604 to 643):
resolve the timestamp and record whether the debug only clock id
assertion of lines 607 and 608 holds, run the incremental state
validity check, run the lazy track descriptor step, then append the
event record built with the argument callback.  Returns the new state,
the new output and the assertion verdict. -/
def emitEnabled (registryNames : List String) (category : CategoryRef)
    (event_name : String) (etype : Nat) (track : Option Nat)
    (timestamp : TimestampArg)
    (arg_function : List (String × Nat) → List (String × Nat))
    (incr : TrackEventIncrementalState) (out : List OutItem) :
    TrackEventIncrementalState × List OutItem × Bool :=
  let tts := ConvertTimestampToTraceTimeNs timestamp
  let st1 := resetStep tts.nanoseconds incr out
  let st2 := trackStep track st1
  (st2.1,
   st2.2 ++ [OutItem.event
     (emittedEvent registryNames category event_name etype track timestamp
       arg_function)],
   decide (tts.clock_id = traceClockId))

/-- TraceForCategoryImpl together with TraceWithInstances (source lines
583 to 658).  TraceWithInstances runs the emission lambda only when the
instances bitmask is nonzero; the lambda first performs the dynamic
category enablement check with early return (lines 597 to 602) and then
the enabled emission body.  The callback is modelled as the
transformation it applies to the debug value list of the open record;
its invocation is counted in the result, as are the config evaluations
performed by the dynamic category check. -/
def TraceForCategoryImpl (config : String → Bool) (registryNames : List String)
    (instances : Nat) (category : CategoryRef) (event_name : String)
    (etype : Nat) (track : Option Nat) (timestamp : TimestampArg)
    (arg_function : List (String × Nat) → List (String × Nat))
    (incr : TrackEventIncrementalState) (out : List OutItem) : EmitResult :=
  if instances = 0 then
    { incr := incr, out := out, callbackInvocations := 0, configEvals := 0,
      dchecksOk := true }
  else
    let check : Bool × TrackEventIncrementalState × Nat :=
      match category with
      | CategoryRef.dynamic n => IsDynamicCategoryEnabled config incr n
      | CategoryRef.static _ => (true, incr, 0)
    if check.1 = false then
      { incr := check.2.1, out := out, callbackInvocations := 0,
        configEvals := check.2.2, dchecksOk := true }
    else
      let r := emitEnabled registryNames category event_name etype track
        timestamp arg_function check.2.1 out
      { incr := r.1, out := r.2.1, callbackInvocations := 1,
        configEvals := check.2.2, dchecksOk := r.2.2 }

/-- IsCategoryEnabled (source lines 204 to 207): a single relaxed
atomic load of the per category state byte of the registry at the given
index, converted to bool, so the result is true exactly when the byte
is nonzero.  The registry is modelled as the current list of state
bytes; the read is a pure function of it, with no side effects. -/
def IsCategoryEnabled (registryState : List Nat) (category_index : Nat) : Bool :=
  decide (registryState.getD category_index 0 ≠ 0)

/-- Modelled from the spec: TrackEventInternal.AddSessionObserver is
external; the observer list has a bounded capacity and registration
returns true exactly when the observer was appended, false when the
capacity was already reached, in which case the list is unchanged.
AddSessionObserver of the data source (source lines 167 to 169)
forwards to it and returns its boolean. -/
def AddSessionObserver (capacity : Nat) (observers : List Nat) (o : Nat) :
    Bool × List Nat :=
  if observers.length < capacity then (true, observers ++ [o])
  else (false, observers)

/-- Number of incremental state rebuild signals in an output stream. -/
def countResets : List OutItem → Nat
  | [] => 0
  | OutItem.incrementalReset _ :: rest => countResets rest + 1
  | OutItem.trackDescriptor _ :: rest => countResets rest
  | OutItem.event _ :: rest => countResets rest

/-- A dynamic category name is config evaluated disabled on a sequence:
either the cache already holds false for it, or it is uncached and the
session config predicate rejects it. -/
def dynConfigDisabled (config : String → Bool)
    (incr : TrackEventIncrementalState) (n : String) : Prop :=
  lookupCache incr.dynamic_categories n = some false ∨
  (lookupCache incr.dynamic_categories n = none ∧ config n = false)

/-- A category is disabled for a trace point call: for a static
category the instance bitmask is zero; for a dynamic category the
config evaluates it disabled on this sequence. -/
def categoryDisabled (config : String → Bool)
    (incr : TrackEventIncrementalState) (instances : Nat) :
    CategoryRef → Prop
  | CategoryRef.static _ => instances = 0
  | CategoryRef.dynamic n => dynConfigDisabled config incr n

/-- The enablement check passes for the category on this sequence: a
static category always reaches the emission body once the bitmask is
nonzero; a dynamic category must additionally pass the dynamic
enablement check. -/
def emissionEnabled (config : String → Bool)
    (incr : TrackEventIncrementalState) : CategoryRef → Prop
  | CategoryRef.static _ => True
  | CategoryRef.dynamic n => (IsDynamicCategoryEnabled config incr n).1 = true

/-- Looking a name up after appending a binding for that name to a
cache that did not contain it yields the appended value. -/
theorem lookupCache_append_of_none (l : List (String × Bool)) (n : String)
    (b : Bool) (h : lookupCache l n = none) :
    lookupCache (l ++ [(n, b)]) n = some b := by
  induction l with
  | nil => simp [lookupCache]
  | cons p rest ih =>
    obtain ⟨k, v⟩ := p
    by_cases hk : k = n
    · simp [lookupCache, hk] at h
    · simp only [List.cons_append, lookupCache, if_neg hk] at h ⊢
      exact ih h

/-- Behavioral characterization of IsDynamicCategoryEnabled: the call
never touches the cleared flag or the seen tracks set, it leaves the
cache holding exactly the boolean it returned for the name, and any
later call for the same name under any config is a pure cache hit that
returns the same boolean and changes nothing. -/
theorem IsDynamicCategoryEnabled_spec (config : String → Bool)
    (incr : TrackEventIncrementalState) (n : String) :
    (IsDynamicCategoryEnabled config incr n).2.1.was_cleared = incr.was_cleared ∧
    (IsDynamicCategoryEnabled config incr n).2.1.seen_tracks = incr.seen_tracks ∧
    lookupCache (IsDynamicCategoryEnabled config incr n).2.1.dynamic_categories n
      = some (IsDynamicCategoryEnabled config incr n).1 ∧
    ∀ config2 : String → Bool,
      IsDynamicCategoryEnabled config2 (IsDynamicCategoryEnabled config incr n).2.1 n
        = ((IsDynamicCategoryEnabled config incr n).1,
           (IsDynamicCategoryEnabled config incr n).2.1, 0) := by
  cases h : lookupCache incr.dynamic_categories n with
  | some b =>
    simp [IsDynamicCategoryEnabled, h]
  | none =>
    have h2 := lookupCache_append_of_none incr.dynamic_categories n (config n) h
    simp [IsDynamicCategoryEnabled, h, h2]

/-- The resetStep leaves the state with the cleared flag down and all
other fields unchanged, whether or not the flag was set. -/
theorem resetStep_fst (ts : Nat) (incr : TrackEventIncrementalState)
    (out : List OutItem) :
    (resetStep ts incr out).1 = { incr with was_cleared := false } := by
  unfold resetStep
  split
  · rfl
  · cases incr
    simp_all

/-- The resetStep appends the rebuild signal exactly when the cleared
flag was set. -/
theorem resetStep_snd (ts : Nat) (incr : TrackEventIncrementalState)
    (out : List OutItem) :
    (resetStep ts incr out).2 =
      out ++ (if incr.was_cleared then [OutItem.incrementalReset ts] else []) := by
  unfold resetStep
  split
  · simp_all
  · simp_all

/-- With no supplied track the track step does nothing. -/
theorem trackStep_none (st : TrackEventIncrementalState × List OutItem) :
    trackStep none st = st := rfl

/-- With a supplied track not yet seen this epoch, the track step
writes the descriptor and marks the track seen. -/
theorem trackStep_some_new (u : Nat)
    (st : TrackEventIncrementalState × List OutItem)
    (h : u ∉ st.1.seen_tracks) :
    trackStep (some u) st =
      ({ st.1 with seen_tracks := u :: st.1.seen_tracks },
       st.2 ++ [OutItem.trackDescriptor u]) := by
  simp [trackStep, WriteTrackDescriptorIfNeeded, h]

/-- With a supplied track already seen this epoch, the track step does
nothing. -/
theorem trackStep_some_seen (u : Nat)
    (st : TrackEventIncrementalState × List OutItem)
    (h : u ∈ st.1.seen_tracks) :
    trackStep (some u) st = st := by
  simp [trackStep, WriteTrackDescriptorIfNeeded, h]

/-- Counting rebuild signals distributes over append. -/
theorem countResets_append (a b : List OutItem) :
    countResets (a ++ b) = countResets a + countResets b := by
  induction a with
  | nil => simp [countResets]
  | cons x rest ih =>
    cases x with
    | incrementalReset ts => simp [countResets, ih]; omega
    | trackDescriptor u => simp [countResets, ih]
    | event e => simp [countResets, ih]

/-- State of the sequence once the dynamic category check of an
emission has run: unchanged for a static category, possibly extended by
one cache entry for a dynamic one. -/
def postCheckState (config : String → Bool)
    (incr : TrackEventIncrementalState) : CategoryRef → TrackEventIncrementalState
  | CategoryRef.static _ => incr
  | CategoryRef.dynamic n => (IsDynamicCategoryEnabled config incr n).2.1

/-- Config evaluations performed by the dynamic category check of an
emission. -/
def postCheckEvals (config : String → Bool)
    (incr : TrackEventIncrementalState) : CategoryRef → Nat
  | CategoryRef.static _ => 0
  | CategoryRef.dynamic n => (IsDynamicCategoryEnabled config incr n).2.2

/-- The dynamic category check never touches the cleared flag. -/
theorem postCheckState_was_cleared (config : String → Bool)
    (incr : TrackEventIncrementalState) (category : CategoryRef) :
    (postCheckState config incr category).was_cleared = incr.was_cleared := by
  cases category with
  | static idx => rfl
  | dynamic n => exact (IsDynamicCategoryEnabled_spec config incr n).1

/-- The dynamic category check never touches the seen tracks set. -/
theorem postCheckState_seen_tracks (config : String → Bool)
    (incr : TrackEventIncrementalState) (category : CategoryRef) :
    (postCheckState config incr category).seen_tracks = incr.seen_tracks := by
  cases category with
  | static idx => rfl
  | dynamic n => exact (IsDynamicCategoryEnabled_spec config incr n).2.1

/-- Normal form of an enabled trace point call: with a nonzero instance
bitmask and the enablement check passing, the call runs the enabled
emission body on the post check state and invokes the callback exactly
once. -/
theorem TraceForCategoryImpl_enabled (config : String → Bool)
    (registryNames : List String) (instances : Nat) (category : CategoryRef)
    (event_name : String) (etype : Nat) (track : Option Nat)
    (timestamp : TimestampArg)
    (arg_function : List (String × Nat) → List (String × Nat))
    (incr : TrackEventIncrementalState) (out : List OutItem)
    (hinst : instances ≠ 0) (hen : emissionEnabled config incr category) :
    TraceForCategoryImpl config registryNames instances category event_name
        etype track timestamp arg_function incr out =
      { incr := (emitEnabled registryNames category event_name etype track
          timestamp arg_function (postCheckState config incr category) out).1,
        out := (emitEnabled registryNames category event_name etype track
          timestamp arg_function (postCheckState config incr category) out).2.1,
        callbackInvocations := 1,
        configEvals := postCheckEvals config incr category,
        dchecksOk := (emitEnabled registryNames category event_name etype track
          timestamp arg_function (postCheckState config incr category) out).2.2 } := by
  cases category with
  | static idx =>
    simp [TraceForCategoryImpl, hinst, postCheckState, postCheckEvals]
  | dynamic n =>
    have hen2 : (IsDynamicCategoryEnabled config incr n).1 = true := hen
    simp [TraceForCategoryImpl, hinst, hen2, postCheckState, postCheckEvals]

/-- Output of the enabled emission body: the output after the reset and
track steps, with the event record appended last. -/
theorem emitEnabled_out (registryNames : List String) (category : CategoryRef)
    (event_name : String) (etype : Nat) (track : Option Nat)
    (timestamp : TimestampArg)
    (arg_function : List (String × Nat) → List (String × Nat))
    (incr : TrackEventIncrementalState) (out : List OutItem) :
    (emitEnabled registryNames category event_name etype track timestamp
        arg_function incr out).2.1 =
      (trackStep track (resetStep (ConvertTimestampToTraceTimeNs timestamp).nanoseconds
          incr out)).2 ++
        [OutItem.event (emittedEvent registryNames category event_name etype
          track timestamp arg_function)] := rfl

/-- State component of the enabled emission body. -/
theorem emitEnabled_fst (registryNames : List String) (category : CategoryRef)
    (event_name : String) (etype : Nat) (track : Option Nat)
    (timestamp : TimestampArg)
    (arg_function : List (String × Nat) → List (String × Nat))
    (incr : TrackEventIncrementalState) (out : List OutItem) :
    (emitEnabled registryNames category event_name etype track timestamp
        arg_function incr out).1 =
      (trackStep track (resetStep (ConvertTimestampToTraceTimeNs timestamp).nanoseconds
          incr out)).1 := rfl

/-- Assertion verdict of the enabled emission body: the debug only
check compares the resolved clock id with the trace clock id. -/
theorem emitEnabled_dchecks (registryNames : List String)
    (category : CategoryRef) (event_name : String) (etype : Nat)
    (track : Option Nat) (timestamp : TimestampArg)
    (arg_function : List (String × Nat) → List (String × Nat))
    (incr : TrackEventIncrementalState) (out : List OutItem) :
    (emitEnabled registryNames category event_name etype track timestamp
        arg_function incr out).2.2 =
      decide ((ConvertTimestampToTraceTimeNs timestamp).clock_id = traceClockId) := rfl

/-- C2: the first dynamic category enablement check for a name on a
sequence evaluates the session config exactly once and stores the
resulting boolean in the sequence local cache; every subsequent check
of the same name on that sequence returns the cached boolean with zero
config evaluations and an unchanged state, even when the config has
changed since (checked here against an arbitrary second config). -/
theorem c2_dynamic_cache_memoizes (config config2 : String → Bool)
    (incr : TrackEventIncrementalState) (n : String)
    (h : lookupCache incr.dynamic_categories n = none) :
    (IsDynamicCategoryEnabled config incr n).2.2 = 1 ∧
    (IsDynamicCategoryEnabled config incr n).1 = config n ∧
    lookupCache (IsDynamicCategoryEnabled config incr n).2.1.dynamic_categories n
      = some (config n) ∧
    IsDynamicCategoryEnabled config2 (IsDynamicCategoryEnabled config incr n).2.1 n
      = (config n, (IsDynamicCategoryEnabled config incr n).2.1, 0) := by
  have h2 := lookupCache_append_of_none incr.dynamic_categories n (config n) h
  simp [IsDynamicCategoryEnabled, h, h2]

/-- Witness for C2 at a fresh sequence and the name cat, with the
config flipping from everywhere true to everywhere false between the
two checks. -/
theorem c2_dynamic_cache_memoizes_witness :
    lookupCache resetSequence.dynamic_categories "cat" = none ∧
    (IsDynamicCategoryEnabled (fun _ => true) resetSequence "cat").2.2 = 1 ∧
    IsDynamicCategoryEnabled (fun _ => false)
        (IsDynamicCategoryEnabled (fun _ => true) resetSequence "cat").2.1 "cat"
      = (true, (IsDynamicCategoryEnabled (fun _ => true) resetSequence "cat").2.1, 0) := by
  refine ⟨rfl, ?_, ?_⟩
  · exact (c2_dynamic_cache_memoizes (fun _ => true) (fun _ => false)
      resetSequence "cat" rfl).1
  · exact (c2_dynamic_cache_memoizes (fun _ => true) (fun _ => false)
      resetSequence "cat" rfl).2.2.2

/-- C7: the static category enablement check is a pure read of the
registry state byte at the category index and returns true exactly when
that byte is nonzero; because it consults the current registry value on
every call, an external toggle of the byte is reflected by the next
check with no cache to invalidate. -/
theorem c7_static_enabled_iff_byte_nonzero (reg : List Nat) (idx : Nat)
    (h : idx < reg.length) :
    (IsCategoryEnabled reg idx = true ↔ reg.get ⟨idx, h⟩ ≠ 0) ∧
    (∀ v, IsCategoryEnabled (reg.set idx v) idx = true ↔ v ≠ 0) := by
  constructor
  · rw [IsCategoryEnabled, List.getD_eq_getElem _ _ h]
    simp
  · intro v
    rw [IsCategoryEnabled, List.getD_eq_getElem _ _ (by simpa using h),
      List.getElem_set_self (by simpa using h)]
    simp

/-- Witness for C7 on a three byte registry: the byte at index one is
two, so the check returns true, and setting it to zero makes the next
check return false. -/
theorem c7_static_enabled_iff_byte_nonzero_witness :
    1 < [0, 2, 0].length ∧
    IsCategoryEnabled [0, 2, 0] 1 = true ∧
    IsCategoryEnabled ([0, 2, 0].set 1 0) 1 = false := by
  refine ⟨by decide, ?_, ?_⟩
  · exact ((c7_static_enabled_iff_byte_nonzero [0, 2, 0] 1 (by decide)).1).mpr
      (by decide)
  · have h := ((c7_static_enabled_iff_byte_nonzero [0, 2, 0] 1 (by decide)).2 0)
    simp at h
    exact h

/-- C9: adding a session observer returns a boolean that is true
exactly when the observer was added, which happens exactly when the
bounded capacity was not yet reached; on failure the observer list is
unchanged and the only failure signal is the returned boolean (the
operation is a total function, so no exception path exists). -/
theorem c9_add_observer_boolean (capacity : Nat) (observers : List Nat)
    (o : Nat) :
    ((AddSessionObserver capacity observers o).1 = true ↔
      observers.length < capacity) ∧
    ((AddSessionObserver capacity observers o).1 = true →
      (AddSessionObserver capacity observers o).2 = observers ++ [o]) ∧
    ((AddSessionObserver capacity observers o).1 = false →
      (AddSessionObserver capacity observers o).2 = observers) := by
  by_cases h : observers.length < capacity
  · simp [AddSessionObserver, h]
  · simp [AddSessionObserver, h]

/-- The track step never touches the dynamic category cache. -/
theorem trackStep_cache (track : Option Nat)
    (st : TrackEventIncrementalState × List OutItem) :
    (trackStep track st).1.dynamic_categories = st.1.dynamic_categories := by
  cases track with
  | none => rfl
  | some u =>
    by_cases h : u ∈ st.1.seen_tracks
    · simp [trackStep, WriteTrackDescriptorIfNeeded, h]
    · simp [trackStep, WriteTrackDescriptorIfNeeded, h]

/-- The track step never touches the cleared flag. -/
theorem trackStep_was_cleared (track : Option Nat)
    (st : TrackEventIncrementalState × List OutItem) :
    (trackStep track st).1.was_cleared = st.1.was_cleared := by
  cases track with
  | none => rfl
  | some u =>
    by_cases h : u ∈ st.1.seen_tracks
    · simp [trackStep, WriteTrackDescriptorIfNeeded, h]
    · simp [trackStep, WriteTrackDescriptorIfNeeded, h]

/-- The track step appends no rebuild signal. -/
theorem trackStep_countResets (track : Option Nat)
    (st : TrackEventIncrementalState × List OutItem) :
    countResets (trackStep track st).2 = countResets st.2 := by
  cases track with
  | none => rfl
  | some u =>
    by_cases h : u ∈ st.1.seen_tracks
    · simp [trackStep, WriteTrackDescriptorIfNeeded, h]
    · simp [trackStep, WriteTrackDescriptorIfNeeded, h, countResets_append,
        countResets]

/-- An enabled emission body appends exactly one rebuild signal when
the cleared flag was set and none otherwise. -/
theorem emitEnabled_countResets (registryNames : List String)
    (category : CategoryRef) (event_name : String) (etype : Nat)
    (track : Option Nat) (timestamp : TimestampArg)
    (arg_function : List (String × Nat) → List (String × Nat))
    (incr : TrackEventIncrementalState) (out : List OutItem) :
    countResets (emitEnabled registryNames category event_name etype track
        timestamp arg_function incr out).2.1 =
      countResets out + (if incr.was_cleared then 1 else 0) := by
  rw [emitEnabled_out, countResets_append, trackStep_countResets,
    resetStep_snd, countResets_append]
  cases h : incr.was_cleared with
  | false => simp [countResets]
  | true => simp [countResets]

/-- An enabled emission body always leaves the cleared flag down. -/
theorem emitEnabled_was_cleared (registryNames : List String)
    (category : CategoryRef) (event_name : String) (etype : Nat)
    (track : Option Nat) (timestamp : TimestampArg)
    (arg_function : List (String × Nat) → List (String × Nat))
    (incr : TrackEventIncrementalState) (out : List OutItem) :
    (emitEnabled registryNames category event_name etype track timestamp
        arg_function incr out).1.was_cleared = false := by
  rw [emitEnabled_fst, trackStep_was_cleared, resetStep_fst]

/-- An enabled emission body never changes the dynamic category
cache. -/
theorem emitEnabled_cache (registryNames : List String)
    (category : CategoryRef) (event_name : String) (etype : Nat)
    (track : Option Nat) (timestamp : TimestampArg)
    (arg_function : List (String × Nat) → List (String × Nat))
    (incr : TrackEventIncrementalState) (out : List OutItem) :
    (emitEnabled registryNames category event_name etype track timestamp
        arg_function incr out).1.dynamic_categories = incr.dynamic_categories := by
  rw [emitEnabled_fst, trackStep_cache, resetStep_fst]

/-- C1: a trace point call on a disabled category, where disabled means
a zero instance bitmask for a static category or a config evaluated
disabled verdict for a dynamic category, never invokes the argument
callback (so neither the callback nor the debug value expressions it
wraps are evaluated) and writes nothing to the output of the
sequence. -/
theorem c1_disabled_no_callback_no_output (config : String → Bool)
    (registryNames : List String) (instances : Nat) (category : CategoryRef)
    (event_name : String) (etype : Nat) (track : Option Nat)
    (timestamp : TimestampArg)
    (arg_function : List (String × Nat) → List (String × Nat))
    (incr : TrackEventIncrementalState) (out : List OutItem)
    (h : categoryDisabled config incr instances category) :
    (TraceForCategoryImpl config registryNames instances category event_name
        etype track timestamp arg_function incr out).callbackInvocations = 0 ∧
    (TraceForCategoryImpl config registryNames instances category event_name
        etype track timestamp arg_function incr out).out = out := by
  by_cases hi : instances = 0
  · simp [TraceForCategoryImpl, hi]
  · cases category with
    | static idx =>
      have h2 : instances = 0 := h
      exact absurd h2 hi
    | dynamic n =>
      have h2 : lookupCache incr.dynamic_categories n = some false ∨
          (lookupCache incr.dynamic_categories n = none ∧ config n = false) := h
      have hfalse : (IsDynamicCategoryEnabled config incr n).1 = false := by
        rcases h2 with h3 | ⟨h3, h4⟩
        · simp [IsDynamicCategoryEnabled, h3]
        · simp [IsDynamicCategoryEnabled, h3, h4]
      simp [TraceForCategoryImpl, hi, hfalse]

/-- Witness for C1: a dynamic category nobody enabled, with a nonzero
bitmask, on a fresh sequence; the callback is a marker that would
append a debug value, and the output stays empty. -/
theorem c1_disabled_no_callback_no_output_witness :
    categoryDisabled (fun _ => false) resetSequence 1 (CategoryRef.dynamic "web") ∧
    (TraceForCategoryImpl (fun _ => false) ["cat"] 1 (CategoryRef.dynamic "web")
        "e" 0 none (TimestampArg.raw 1) (fun a => a ++ [("hit", 1)])
        resetSequence []).callbackInvocations = 0 ∧
    (TraceForCategoryImpl (fun _ => false) ["cat"] 1 (CategoryRef.dynamic "web")
        "e" 0 none (TimestampArg.raw 1) (fun a => a ++ [("hit", 1)])
        resetSequence []).out = [] := by
  have hd : categoryDisabled (fun _ => false) resetSequence 1
      (CategoryRef.dynamic "web") := Or.inr ⟨rfl, rfl⟩
  exact ⟨hd,
    (c1_disabled_no_callback_no_output (fun _ => false) ["cat"] 1
      (CategoryRef.dynamic "web") "e" 0 none (TimestampArg.raw 1)
      (fun a => a ++ [("hit", 1)]) resetSequence [] hd).1,
    (c1_disabled_no_callback_no_output (fun _ => false) ["cat"] 1
      (CategoryRef.dynamic "web") "e" 0 none (TimestampArg.raw 1)
      (fun a => a ++ [("hit", 1)]) resetSequence [] hd).2⟩

/-- C10: a trace point call with an uncached dynamic category that the
config evaluates disabled writes no event, no track descriptor and no
rebuild signal, performs no incremental state reset, and changes the
per sequence state only by inserting the binding of the name to false
into the dynamic category cache, having evaluated the config once. -/
theorem c10_dynamic_disabled_only_caches (config : String → Bool)
    (registryNames : List String) (instances : Nat) (n : String)
    (event_name : String) (etype : Nat) (track : Option Nat)
    (timestamp : TimestampArg)
    (arg_function : List (String × Nat) → List (String × Nat))
    (incr : TrackEventIncrementalState) (out : List OutItem)
    (hinst : instances ≠ 0)
    (hmiss : lookupCache incr.dynamic_categories n = none)
    (hdis : config n = false) :
    TraceForCategoryImpl config registryNames instances (CategoryRef.dynamic n)
        event_name etype track timestamp arg_function incr out =
      { incr := { incr with
          dynamic_categories := incr.dynamic_categories ++ [(n, false)] },
        out := out, callbackInvocations := 0, configEvals := 1,
        dchecksOk := true } := by
  simp [TraceForCategoryImpl, hinst, IsDynamicCategoryEnabled, hmiss, hdis]

/-- Witness for C10 on a fresh sequence with a supplied track, whose
descriptor is nevertheless not written. -/
theorem c10_dynamic_disabled_only_caches_witness :
    (1 : Nat) ≠ 0 ∧
    lookupCache resetSequence.dynamic_categories "aa" = none ∧
    (fun _ : String => false) "aa" = false ∧
    TraceForCategoryImpl (fun _ => false) [] 1 (CategoryRef.dynamic "aa") "e" 2
        (some 9) (TimestampArg.raw 3) (fun a => a) resetSequence [] =
      { incr := { resetSequence with
          dynamic_categories := resetSequence.dynamic_categories ++ [("aa", false)] },
        out := [], callbackInvocations := 0, configEvals := 1,
        dchecksOk := true } := by
  refine ⟨by decide, rfl, rfl, ?_⟩
  exact c10_dynamic_disabled_only_caches (fun _ => false) [] 1 "aa" "e" 2
    (some 9) (TimestampArg.raw 3) (fun a => a) resetSequence [] (by decide)
    rfl rfl

/-- C5: an enabled emission with a dynamic category whose name encodes
a comma joined group writes an event record whose category tag list is
exactly the group member list, so it contains every member as a
separate tag. -/
theorem c5_dynamic_group_tags (config : String → Bool)
    (registryNames : List String) (instances : Nat) (n : String)
    (event_name : String) (etype : Nat) (track : Option Nat)
    (timestamp : TimestampArg)
    (arg_function : List (String × Nat) → List (String × Nat))
    (incr : TrackEventIncrementalState) (out : List OutItem)
    (hinst : instances ≠ 0)
    (hen : (IsDynamicCategoryEnabled config incr n).1 = true) :
    ∃ rest ev,
      (TraceForCategoryImpl config registryNames instances
          (CategoryRef.dynamic n) event_name etype track timestamp
          arg_function incr out).out = rest ++ [OutItem.event ev] ∧
      ev.categories = groupMembers n ∧
      ∀ m, m ∈ groupMembers n → m ∈ ev.categories := by
  rw [TraceForCategoryImpl_enabled config registryNames instances
    (CategoryRef.dynamic n) event_name etype track timestamp arg_function
    incr out hinst hen]
  exact ⟨_, emittedEvent registryNames (CategoryRef.dynamic n) event_name etype
      track timestamp arg_function,
    emitEnabled_out registryNames (CategoryRef.dynamic n) event_name etype
      track timestamp arg_function
      (postCheckState config incr (CategoryRef.dynamic n)) out,
    rfl, fun m hm => hm⟩

/-- Witness for C5: the two member group custom,extra enabled by the
config; both member names appear in the emitted category tag list. -/
theorem c5_dynamic_group_tags_witness :
    (1 : Nat) ≠ 0 ∧
    (IsDynamicCategoryEnabled (fun _ => true) resetSequence "custom,extra").1 = true ∧
    ∃ rest ev,
      (TraceForCategoryImpl (fun _ => true) [] 1
          (CategoryRef.dynamic "custom,extra") "e" 0 none (TimestampArg.raw 1)
          (fun a => a) resetSequence []).out = rest ++ [OutItem.event ev] ∧
      "custom" ∈ ev.categories ∧ "extra" ∈ ev.categories := by
  refine ⟨by decide, rfl, ?_⟩
  obtain ⟨rest, ev, hout, hcats, hmem⟩ :=
    c5_dynamic_group_tags (fun _ => true) [] 1 "custom,extra" "e" 0 none
      (TimestampArg.raw 1) (fun a => a) resetSequence [] (by decide) rfl
  exact ⟨rest, ev, hout, hmem "custom" (by rw [hcats] at *; decide),
    hmem "extra" (by decide)⟩

/-- C6: an enabled emission carries an explicit track uuid on the
record exactly when a non default track was supplied: the defaulted
track argument yields a record with no track uuid, and a supplied track
yields a record carrying exactly that uuid. -/
theorem c6_track_uuid_iff_supplied (config : String → Bool)
    (registryNames : List String) (instances : Nat) (category : CategoryRef)
    (event_name : String) (etype : Nat) (track : Option Nat)
    (timestamp : TimestampArg)
    (arg_function : List (String × Nat) → List (String × Nat))
    (incr : TrackEventIncrementalState) (out : List OutItem)
    (hinst : instances ≠ 0) (hen : emissionEnabled config incr category) :
    ∃ rest ev,
      (TraceForCategoryImpl config registryNames instances category event_name
          etype track timestamp arg_function incr out).out
        = rest ++ [OutItem.event ev] ∧
      ev.track_uuid = track ∧
      (track = none → ev.track_uuid = none) ∧
      ∀ u, track = some u → ev.track_uuid = some u := by
  rw [TraceForCategoryImpl_enabled config registryNames instances category
    event_name etype track timestamp arg_function incr out hinst hen]
  exact ⟨_, emittedEvent registryNames category event_name etype track
      timestamp arg_function,
    emitEnabled_out registryNames category event_name etype track timestamp
      arg_function (postCheckState config incr category) out,
    rfl, fun h => h, fun u h => h⟩

/-- Witness for C6: the same static emission once with the defaulted
track, carrying no uuid, and once with track seven, carrying uuid
seven. -/
theorem c6_track_uuid_iff_supplied_witness :
    (1 : Nat) ≠ 0 ∧
    (∃ rest ev,
      (TraceForCategoryImpl (fun _ => true) ["net"] 1 (CategoryRef.static 0)
          "send" 0 none (TimestampArg.raw 42) (fun a => a) resetSequence
          []).out = rest ++ [OutItem.event ev] ∧ ev.track_uuid = none) ∧
    ∃ rest ev,
      (TraceForCategoryImpl (fun _ => true) ["net"] 1 (CategoryRef.static 0)
          "send" 0 (some 7) (TimestampArg.raw 42) (fun a => a) resetSequence
          []).out = rest ++ [OutItem.event ev] ∧ ev.track_uuid = some 7 := by
  refine ⟨by decide, ?_, ?_⟩
  · obtain ⟨rest, ev, hout, htu, _, _⟩ :=
      c6_track_uuid_iff_supplied (fun _ => true) ["net"] 1 (CategoryRef.static 0)
        "send" 0 none (TimestampArg.raw 42) (fun a => a) resetSequence []
        (by decide) trivial
    exact ⟨rest, ev, hout, htu⟩
  · obtain ⟨rest, ev, hout, htu, _, _⟩ :=
      c6_track_uuid_iff_supplied (fun _ => true) ["net"] 1 (CategoryRef.static 0)
        "send" 0 (some 7) (TimestampArg.raw 42) (fun a => a) resetSequence []
        (by decide) trivial
    exact ⟨rest, ev, hout, htu⟩

/-- C8: the clock id of a resolved timestamp is checked against the
trace clock only by the debug build assertion: the recorded verdict is
true exactly when the clocks match, the event is written with the
resolved nanosecond value as is in either case, and a raw nanosecond
timestamp always resolves to the trace clock, so it can never trip the
assertion. -/
theorem c8_clock_assert_debug_only (config : String → Bool)
    (registryNames : List String) (instances : Nat) (category : CategoryRef)
    (event_name : String) (etype : Nat) (track : Option Nat)
    (timestamp : TimestampArg)
    (arg_function : List (String × Nat) → List (String × Nat))
    (incr : TrackEventIncrementalState) (out : List OutItem)
    (hinst : instances ≠ 0) (hen : emissionEnabled config incr category) :
    (∀ ns, ConvertTimestampToTraceTimeNs (TimestampArg.raw ns) =
      { clock_id := traceClockId, nanoseconds := ns }) ∧
    ((TraceForCategoryImpl config registryNames instances category event_name
        etype track timestamp arg_function incr out).dchecksOk = true ↔
      (ConvertTimestampToTraceTimeNs timestamp).clock_id = traceClockId) ∧
    ∃ rest ev,
      (TraceForCategoryImpl config registryNames instances category event_name
          etype track timestamp arg_function incr out).out
        = rest ++ [OutItem.event ev] ∧
      ev.timestamp = (ConvertTimestampToTraceTimeNs timestamp).nanoseconds := by
  rw [TraceForCategoryImpl_enabled config registryNames instances category
    event_name etype track timestamp arg_function incr out hinst hen]
  refine ⟨fun ns => rfl, ?_, ?_⟩
  · show (emitEnabled registryNames category event_name etype track timestamp
        arg_function (postCheckState config incr category) out).2.2 = true ↔ _
    rw [emitEnabled_dchecks]
    exact decide_eq_true_iff
  · exact ⟨_, emittedEvent registryNames category event_name etype track
        timestamp arg_function,
      emitEnabled_out registryNames category event_name etype track timestamp
        arg_function (postCheckState config incr category) out,
      rfl⟩

/-- Witness for C8: a custom timestamp carrying the mismatched clock id
ninety nine is still recorded with its nanosecond value while the
assertion verdict is false, and the raw conversion stamps the trace
clock id. -/
theorem c8_clock_assert_debug_only_witness :
    ConvertTimestampToTraceTimeNs (TimestampArg.raw 5) =
      { clock_id := traceClockId, nanoseconds := 5 } ∧
    (TraceForCategoryImpl (fun _ => true) ["c"] 1 (CategoryRef.static 0) "e" 0
        none (TimestampArg.custom { clock_id := 99, nanoseconds := 31 })
        (fun a => a) resetSequence []).dchecksOk = false ∧
    ∃ rest ev,
      (TraceForCategoryImpl (fun _ => true) ["c"] 1 (CategoryRef.static 0) "e"
          0 none (TimestampArg.custom { clock_id := 99, nanoseconds := 31 })
          (fun a => a) resetSequence []).out = rest ++ [OutItem.event ev] ∧
      ev.timestamp = 31 := by
  obtain ⟨hraw, hiff, rest, ev, hout, hts⟩ :=
    c8_clock_assert_debug_only (fun _ => true) ["c"] 1 (CategoryRef.static 0)
      "e" 0 none (TimestampArg.custom { clock_id := 99, nanoseconds := 31 })
      (fun a => a) resetSequence [] (by decide) trivial
  refine ⟨hraw 5, ?_, rest, ev, hout, hts⟩
  cases hb : (TraceForCategoryImpl (fun _ => true) ["c"] 1 (CategoryRef.static 0)
      "e" 0 none (TimestampArg.custom { clock_id := 99, nanoseconds := 31 })
      (fun a => a) resetSequence []).dchecksOk with
  | false => rfl
  | true => exact absurd (hiff.mp hb) (by decide)

/-- C3: an enabled emission on a non default track whose descriptor has
not yet been written this epoch writes the descriptor into the output
immediately before the event record that references the track, and a
repeated enabled emission on the same track within the same epoch
appends only its event record, with no second descriptor write. -/
theorem c3_descriptor_once_before_event (config : String → Bool)
    (registryNames : List String) (instances : Nat) (category : CategoryRef)
    (event_name : String) (etype : Nat) (u : Nat) (timestamp : TimestampArg)
    (arg_function : List (String × Nat) → List (String × Nat))
    (incr : TrackEventIncrementalState) (out : List OutItem)
    (hinst : instances ≠ 0) (hen : emissionEnabled config incr category)
    (hu : u ∉ incr.seen_tracks) :
    (∃ ev,
      (TraceForCategoryImpl config registryNames instances category event_name
          etype (some u) timestamp arg_function incr out).out
        = (out ++ (if incr.was_cleared then
            [OutItem.incrementalReset
              (ConvertTimestampToTraceTimeNs timestamp).nanoseconds]
          else [])) ++
          [OutItem.trackDescriptor u, OutItem.event ev]) ∧
    ∀ en2 ty2 ts2 f2, ∃ ev2,
      (TraceForCategoryImpl config registryNames instances category en2 ty2
          (some u) ts2 f2
          (TraceForCategoryImpl config registryNames instances category
            event_name etype (some u) timestamp arg_function incr out).incr
          (TraceForCategoryImpl config registryNames instances category
            event_name etype (some u) timestamp arg_function incr out).out).out
        = (TraceForCategoryImpl config registryNames instances category
            event_name etype (some u) timestamp arg_function incr out).out ++
          [OutItem.event ev2] := by
  have hs0c := postCheckState_was_cleared config incr category
  have hs0s := postCheckState_seen_tracks config incr category
  rw [TraceForCategoryImpl_enabled config registryNames instances category
    event_name etype (some u) timestamp arg_function incr out hinst hen]
  have hrst := resetStep_fst (ConvertTimestampToTraceTimeNs timestamp).nanoseconds
    (postCheckState config incr category) out
  have hu1 : u ∉ (resetStep (ConvertTimestampToTraceTimeNs timestamp).nanoseconds
      (postCheckState config incr category) out).1.seen_tracks := by
    rw [hrst]
    show u ∉ (postCheckState config incr category).seen_tracks
    rw [hs0s]
    exact hu
  have htrk := trackStep_some_new u
    (resetStep (ConvertTimestampToTraceTimeNs timestamp).nanoseconds
      (postCheckState config incr category) out) hu1
  constructor
  · refine ⟨emittedEvent registryNames category event_name etype (some u)
      timestamp arg_function, ?_⟩
    show (emitEnabled registryNames category event_name etype (some u)
        timestamp arg_function (postCheckState config incr category) out).2.1 = _
    rw [emitEnabled_out, htrk]
    rw [resetStep_snd]
    show ((out ++ _) ++ [OutItem.trackDescriptor u]) ++ [OutItem.event _] = _
    rw [hs0c]
    simp [List.append_assoc]
  · intro en2 ty2 ts2 f2
    refine ⟨emittedEvent registryNames category en2 ty2 (some u) ts2 f2, ?_⟩
    have hincr2 : (emitEnabled registryNames category event_name etype (some u)
        timestamp arg_function (postCheckState config incr category) out).1
        = { (resetStep (ConvertTimestampToTraceTimeNs timestamp).nanoseconds
              (postCheckState config incr category) out).1 with
            seen_tracks := u ::
              (resetStep (ConvertTimestampToTraceTimeNs timestamp).nanoseconds
                (postCheckState config incr category) out).1.seen_tracks } := by
      rw [emitEnabled_fst, htrk]
    have hwc2 : (emitEnabled registryNames category event_name etype (some u)
        timestamp arg_function (postCheckState config incr category) out).1.was_cleared
        = false := emitEnabled_was_cleared registryNames category event_name
          etype (some u) timestamp arg_function
          (postCheckState config incr category) out
    have hmem2 : u ∈ (emitEnabled registryNames category event_name etype
        (some u) timestamp arg_function
        (postCheckState config incr category) out).1.seen_tracks := by
      rw [hincr2]
      exact List.mem_cons_self u _
    have hcache2 : (emitEnabled registryNames category event_name etype (some u)
        timestamp arg_function (postCheckState config incr category) out).1.dynamic_categories
        = (postCheckState config incr category).dynamic_categories :=
      emitEnabled_cache registryNames category event_name etype (some u)
        timestamp arg_function (postCheckState config incr category) out
    have hen2 : emissionEnabled config
        (emitEnabled registryNames category event_name etype (some u) timestamp
          arg_function (postCheckState config incr category) out).1 category := by
      cases category with
      | static idx => trivial
      | dynamic n =>
        have hl : lookupCache (postCheckState config incr
            (CategoryRef.dynamic n)).dynamic_categories n = some true := by
          have h3 := (IsDynamicCategoryEnabled_spec config incr n).2.2.1
          have hen3 : (IsDynamicCategoryEnabled config incr n).1 = true := hen
          rw [hen3] at h3
          exact h3
        show (IsDynamicCategoryEnabled config _ n).1 = true
        rw [IsDynamicCategoryEnabled]
        rw [hcache2, hl]
    rw [TraceForCategoryImpl_enabled config registryNames instances category
      en2 ty2 (some u) ts2 f2 _ _ hinst hen2]
    have hpost2 : postCheckState config
        (emitEnabled registryNames category event_name etype (some u) timestamp
          arg_function (postCheckState config incr category) out).1 category
        = (emitEnabled registryNames category event_name etype (some u)
            timestamp arg_function (postCheckState config incr category) out).1 := by
      cases category with
      | static idx => rfl
      | dynamic n =>
        have hl : lookupCache (postCheckState config incr
            (CategoryRef.dynamic n)).dynamic_categories n = some true := by
          have h3 := (IsDynamicCategoryEnabled_spec config incr n).2.2.1
          have hen3 : (IsDynamicCategoryEnabled config incr n).1 = true := hen
          rw [hen3] at h3
          exact h3
        show (IsDynamicCategoryEnabled config _ n).2.1 = _
        rw [IsDynamicCategoryEnabled]
        rw [hcache2, hl]
    rw [hpost2]
    show (emitEnabled registryNames category en2 ty2 (some u) ts2 f2 _ _).2.1 = _
    rw [emitEnabled_out]
    have hrst2 := resetStep_snd (ConvertTimestampToTraceTimeNs ts2).nanoseconds
      (emitEnabled registryNames category event_name etype (some u) timestamp
        arg_function (postCheckState config incr category) out).1
      (emitEnabled registryNames category event_name etype (some u) timestamp
        arg_function (postCheckState config incr category) out).2.1
    rw [hwc2] at hrst2
    have hrstfst2 := resetStep_fst (ConvertTimestampToTraceTimeNs ts2).nanoseconds
      (emitEnabled registryNames category event_name etype (some u) timestamp
        arg_function (postCheckState config incr category) out).1
      (emitEnabled registryNames category event_name etype (some u) timestamp
        arg_function (postCheckState config incr category) out).2.1
    have hmem3 : u ∈ (resetStep (ConvertTimestampToTraceTimeNs ts2).nanoseconds
        (emitEnabled registryNames category event_name etype (some u) timestamp
          arg_function (postCheckState config incr category) out).1
        (emitEnabled registryNames category event_name etype (some u) timestamp
          arg_function (postCheckState config incr category) out).2.1).1.seen_tracks := by
      rw [hrstfst2]
      exact hmem2
    rw [trackStep_some_seen u _ hmem3, hrst2]
    simp

/-- Witness for C3: on a sequence with the flag down and no tracks
seen, the first emission on track seven writes exactly the descriptor
followed by the event, and a second emission on track seven appends
only its event. -/
theorem c3_descriptor_once_before_event_witness :
    (7 : Nat) ∉ (⟨false, [], []⟩ : TrackEventIncrementalState).seen_tracks ∧
    (∃ ev,
      (TraceForCategoryImpl (fun _ => true) ["net"] 1 (CategoryRef.static 0)
          "e" 0 (some 7) (TimestampArg.raw 3) (fun a => a)
          { was_cleared := false, dynamic_categories := [], seen_tracks := [] }
          []).out = [OutItem.trackDescriptor 7, OutItem.event ev]) ∧
    ∃ ev2,
      (TraceForCategoryImpl (fun _ => true) ["net"] 1 (CategoryRef.static 0)
          "f" 1 (some 7) (TimestampArg.raw 4) (fun a => a)
          (TraceForCategoryImpl (fun _ => true) ["net"] 1 (CategoryRef.static 0)
            "e" 0 (some 7) (TimestampArg.raw 3) (fun a => a)
            { was_cleared := false, dynamic_categories := [], seen_tracks := [] }
            []).incr
          (TraceForCategoryImpl (fun _ => true) ["net"] 1 (CategoryRef.static 0)
            "e" 0 (some 7) (TimestampArg.raw 3) (fun a => a)
            { was_cleared := false, dynamic_categories := [], seen_tracks := [] }
            []).out).out
        = (TraceForCategoryImpl (fun _ => true) ["net"] 1 (CategoryRef.static 0)
            "e" 0 (some 7) (TimestampArg.raw 3) (fun a => a)
            { was_cleared := false, dynamic_categories := [], seen_tracks := [] }
            []).out ++ [OutItem.event ev2] := by
  obtain ⟨⟨ev, hout⟩, hsecond⟩ := c3_descriptor_once_before_event
    (fun _ => true) ["net"] 1 (CategoryRef.static 0) "e" 0 7
    (TimestampArg.raw 3) (fun a => a)
    { was_cleared := false, dynamic_categories := [], seen_tracks := [] } []
    (by decide) trivial (by decide)
  refine ⟨by decide, ⟨ev, ?_⟩, hsecond "f" 1 (TimestampArg.raw 4) (fun a => a)⟩
  simpa using hout

/-- C4 counterexample: the claim states that the core clears the
dynamic category cache during the emission that observes the set
cleared flag; on a state with the flag set and a nonempty cache, the
call leaves the cache entry in place, so the stated clearing does not
happen. -/
theorem c4_counterexample_cache_not_cleared :
    ({ was_cleared := true, dynamic_categories := [("x", true)],
        seen_tracks := [] } : TrackEventIncrementalState).was_cleared = true ∧
    (TraceForCategoryImpl (fun _ => true) ["c0"] 1 (CategoryRef.static 0) "e" 0
        none (TimestampArg.raw 5) (fun a => a)
        { was_cleared := true, dynamic_categories := [("x", true)],
          seen_tracks := [] } []).incr.dynamic_categories = [("x", true)] :=
  ⟨rfl, rfl⟩

/-- C4 as amended: on every enabled emission, static or dynamic, that
finds the cleared flag set, the core clears the flag and signals the
external writer to re-establish its interned dictionaries exactly once,
and does not clear the dynamic category cache: the cache after the call
is exactly the cache the enablement check left, which only ever adds
entries.  No later enabled emission, with any category, signals again
until the next reset. -/
theorem c4_amended_rebuild_once (config : String → Bool)
    (registryNames : List String) (instances : Nat) (category : CategoryRef)
    (event_name : String) (etype : Nat) (track : Option Nat)
    (timestamp : TimestampArg)
    (arg_function : List (String × Nat) → List (String × Nat))
    (incr : TrackEventIncrementalState) (out : List OutItem)
    (hinst : instances ≠ 0) (hen : emissionEnabled config incr category)
    (hcl : incr.was_cleared = true) :
    countResets (TraceForCategoryImpl config registryNames instances category
        event_name etype track timestamp arg_function incr out).out
      = countResets out + 1 ∧
    (TraceForCategoryImpl config registryNames instances category event_name
        etype track timestamp arg_function incr out).incr.was_cleared = false ∧
    (TraceForCategoryImpl config registryNames instances category event_name
        etype track timestamp arg_function incr out).incr.dynamic_categories
      = (postCheckState config incr category).dynamic_categories ∧
    ∀ category2 en2 ty2 track2 ts2 f2,
      emissionEnabled config
        (TraceForCategoryImpl config registryNames instances category
          event_name etype track timestamp arg_function incr out).incr
        category2 →
      countResets (TraceForCategoryImpl config registryNames instances
          category2 en2 ty2 track2 ts2 f2
          (TraceForCategoryImpl config registryNames instances category
            event_name etype track timestamp arg_function incr out).incr
          (TraceForCategoryImpl config registryNames instances category
            event_name etype track timestamp arg_function incr out).out).out
        = countResets (TraceForCategoryImpl config registryNames instances
            category event_name etype track timestamp arg_function incr
            out).out := by
  rw [TraceForCategoryImpl_enabled config registryNames instances category
    event_name etype track timestamp arg_function incr out hinst hen]
  refine ⟨?_, ?_, ?_, ?_⟩
  · show countResets (emitEnabled registryNames category event_name etype
        track timestamp arg_function (postCheckState config incr category)
        out).2.1 = _
    rw [emitEnabled_countResets, postCheckState_was_cleared, hcl]
    simp
  · exact emitEnabled_was_cleared registryNames category event_name etype
      track timestamp arg_function (postCheckState config incr category) out
  · exact emitEnabled_cache registryNames category event_name etype track
      timestamp arg_function (postCheckState config incr category) out
  · intro category2 en2 ty2 track2 ts2 f2 hen2
    rw [TraceForCategoryImpl_enabled config registryNames instances category2
      en2 ty2 track2 ts2 f2 _ _ hinst hen2]
    show countResets (emitEnabled registryNames category2 en2 ty2 track2 ts2
        f2 (postCheckState config (emitEnabled registryNames category
          event_name etype track timestamp arg_function
          (postCheckState config incr category) out).1 category2)
        (emitEnabled registryNames category event_name etype track timestamp
          arg_function (postCheckState config incr category) out).2.1).2.1 = _
    rw [emitEnabled_countResets, postCheckState_was_cleared,
      emitEnabled_was_cleared]
    simp

/-- Witness for C4 as amended: on a cleared fresh sequence, the first
enabled call (static) emits one rebuild signal and drops the flag, and
a second enabled call with a dynamic category adds no further
signal. -/
theorem c4_amended_rebuild_once_witness :
    (1 : Nat) ≠ 0 ∧ resetSequence.was_cleared = true ∧
    countResets (TraceForCategoryImpl (fun _ => true) ["c"] 1
        (CategoryRef.static 0) "e" 0 none (TimestampArg.raw 5) (fun a => a)
        resetSequence []).out = 1 ∧
    (TraceForCategoryImpl (fun _ => true) ["c"] 1 (CategoryRef.static 0) "e" 0
        none (TimestampArg.raw 5) (fun a => a) resetSequence
        []).incr.was_cleared = false ∧
    countResets (TraceForCategoryImpl (fun _ => true) ["c"] 1
        (CategoryRef.dynamic "d") "g" 2 none (TimestampArg.raw 6) (fun a => a)
        (TraceForCategoryImpl (fun _ => true) ["c"] 1 (CategoryRef.static 0)
          "e" 0 none (TimestampArg.raw 5) (fun a => a) resetSequence []).incr
        (TraceForCategoryImpl (fun _ => true) ["c"] 1 (CategoryRef.static 0)
          "e" 0 none (TimestampArg.raw 5) (fun a => a) resetSequence
          []).out).out
      = countResets (TraceForCategoryImpl (fun _ => true) ["c"] 1
          (CategoryRef.static 0) "e" 0 none (TimestampArg.raw 5) (fun a => a)
          resetSequence []).out := by
  obtain ⟨h1, h2, _, h4⟩ := c4_amended_rebuild_once (fun _ => true) ["c"] 1
    (CategoryRef.static 0) "e" 0 none (TimestampArg.raw 5) (fun a => a)
    resetSequence [] (by decide) trivial rfl
  exact ⟨by decide, rfl, by simpa using h1, h2,
    h4 (CategoryRef.dynamic "d") "g" 2 none (TimestampArg.raw 6)
      (fun a => a) rfl⟩

/-- Witness for C9 at capacity two: adding to a singleton list succeeds
and appends; adding to a full list reports false. -/
theorem c9_add_observer_boolean_witness :
    (AddSessionObserver 2 [5] 7).1 = true ∧
    (AddSessionObserver 2 [5] 7).2 = [5, 7] ∧
    (AddSessionObserver 2 [5, 7] 9).1 = false ∧
    (AddSessionObserver 2 [5, 7] 9).2 = [5, 7] := by
  have ht : (AddSessionObserver 2 [5] 7).1 = true :=
    ((c9_add_observer_boolean 2 [5] 7).1).mpr (by decide)
  have hf : (AddSessionObserver 2 [5, 7] 9).1 = false := by
    cases hb : (AddSessionObserver 2 [5, 7] 9).1 with
    | false => rfl
    | true =>
      exact absurd (((c9_add_observer_boolean 2 [5, 7] 9).1).mp hb) (by decide)
  exact ⟨ht, (c9_add_observer_boolean 2 [5] 7).2.1 ht, hf,
    (c9_add_observer_boolean 2 [5, 7] 9).2.2 hf⟩

end Perfetto
